import Mathlib

/-!
# WhatsApp bot: message relay pipeline

A shallow embedding of `whatsapp-bot/src/api-client.js` and
`whatsapp-bot/src/whatsapp-client.js`.

* JavaScript values that the bot inspects are `JsVal`.
* An `async` function is a computation `Js α`: it takes the current `World`
  (existing paths, the chronological trace of external calls, the ffmpeg
  command that was started) and gives an `Outcome` (normal return or a raised
  error) with the new world.  `await` is sequencing.
* Everything the outside world decides (media download, file system errors,
  ffmpeg, the HTTP answer, the reply send) is read from a `Scenario`.
* `console.log` / `console.error` calls are not recorded.
-/

namespace WhatsappBot

/-! ## JavaScript values -/

/-- JavaScript values (JSON values and `undefined`). -/
inductive JsVal where
  | undefined
  | null
  | bool (b : Bool)
  | num (n : Int)
  | str (s : String)
  | arr (items : List JsVal)
  | obj (fields : List (String × JsVal))
  deriving Repr

/-- JavaScript truthiness, as tested by `if (v)`. -/
def JsVal.truthy : JsVal → Bool
  | .undefined => false
  | .null => false
  | .bool b => b
  | .num n => n != 0
  | .str s => s != ""
  | .arr _ => true
  | .obj _ => true

/-- Truthiness of `process.env.X`: an unset or empty variable is falsy. -/
def envTruthy : Option String → Bool
  | none => false
  | some s => s != ""

/-- The expression `process.env.X || dflt`. -/
def envOr (v : Option String) (dflt : String) : String :=
  match v with
  | none => dflt
  | some s => if s != "" then s else dflt

/-- The value of `process.env.X` inside a template literal. -/
def envTemplate : Option String → String
  | none => "undefined"
  | some s => s

/-- Replacement of the first occurrence of `pat` (non-empty) in a list of characters. -/
def replaceFirstChars (pat rep : List Char) : List Char → List Char
  | [] => []
  | c :: cs =>
    if pat.isPrefixOf (c :: cs) then rep ++ (c :: cs).drop pat.length
    else c :: replaceFirstChars pat rep cs

/-- The call `s.replace(pat, rep)` with a string pattern: first occurrence only. -/
def jsReplace (s pat rep : String) : String :=
  ⟨replaceFirstChars pat.data rep.data s.data⟩

/-! ## Data model -/

/-- The fields of a whatsapp-web.js message that the bot reads.
`id` is `msg.id.id`. -/
structure Message where
  «from» : String
  body : String
  timestamp : Nat
  type : String
  hasMedia : Bool
  id : String
  deriving Repr

/-- Process environment and module location. `tempDir` is the value of
`path.join(__dirname, "../temp")`. -/
structure Env where
  ALLOWED_NUMBER : Option String
  BACKEND_URL : Option String
  tempDir : String
  deriving Repr

/-- The JSON payload built by `sendToBackend`. -/
structure Payload where
  «from» : String
  body : String
  timestamp : Nat
  type : String
  deriving Repr

/-- A value appended to the multipart form. -/
inductive FormValue where
  | text (s : String)
  | number (n : Nat)
  | fileStream (path : String)
  deriving Repr

/-- Request body of an `axios.post`. -/
inductive ReqBody where
  | json (payload : Payload)
  | form (fields : List (String × FormValue))
  deriving Repr

/-- External calls, in the order they are made. `handlerReturned` marks the
moment the promise of the message listener settles. -/
inductive Event where
  | downloadMedia (id : String)
  | mkdir (path : String)
  | writeFile (path : String) (data : String)
  | ffmpegRun (input output : String)
  | post (url : String) (body : ReqBody)
  | reply (content : JsVal)
  | unlink (path : String)
  | handlerReturned
  deriving Repr

/-- The ffmpeg command started by `handleAudioMessage`, with what its two
callbacks close over. -/
structure Job where
  msg : Message
  inputPath : String
  outputPath : String
  deriving Repr

/-- State of the world seen by one message. -/
structure World where
  files : List String
  trace : List Event
  job : Option Job
  deriving Repr

/-- A world with the given existing paths, before the message arrives. -/
def World.start (files : List String) : World :=
  { files := files, trace := [], job := none }

/-! ## What the outside world decides -/

/-- Outcome of `msg.downloadMedia()`. -/
inductive DownloadOutcome where
  | throws
  | noMedia
  | media (data : String)
  deriving Repr

/-- Outcome of the HTTP POST as axios sees it. -/
inductive HttpOutcome where
  | networkError
  | timeout
  | response (status : Nat) (data : JsVal)
  deriving Repr

/-- The terminal signal of the ffmpeg command; on error the output file may
or may not have been written. -/
inductive FfmpegSignal where
  | ended
  | errored (outputWritten : Bool)
  deriving Repr

/-- One choice for every external step of one message. -/
structure Scenario where
  download : DownloadOutcome
  mkdirThrows : Bool
  writeThrows : Bool
  ffmpegThrows : Bool
  signal : FfmpegSignal
  formThrows : Bool
  http : HttpOutcome
  replyThrows : Bool
  unlinkThrows : String → Bool

/-! ## Computations with exceptions -/

/-- Result of running a function: normal return or a raised error. -/
inductive Outcome (α : Type) where
  | ok (value : α)
  | thrown (error : String)
  deriving Repr

/-- A JavaScript computation over the world. -/
def Js (α : Type) : Type := World → Outcome α × World

namespace Js

/-- Normal return. -/
def ret {α : Type} (a : α) : Js α := fun w => (.ok a, w)

/-- Sequencing (`await` / statement order); an error skips the rest. -/
def andThen {α β : Type} (m : Js α) (f : α → Js β) : Js β := fun w =>
  match m w with
  | (.ok a, w1) => f a w1
  | (.thrown e, w1) => (.thrown e, w1)

/-- Raising an error: `throw`. -/
def raise {α : Type} (e : String) : Js α := fun w => (.thrown e, w)

/-- The block `try body catch (e) handler`. -/
def tryCatch {α : Type} (body : Js α) (handler : String → Js α) : Js α := fun w =>
  match body w with
  | (.ok a, w1) => (.ok a, w1)
  | (.thrown e, w1) => handler e w1

/-- The block `try body finally fin`: `fin` always runs; an error raised by
`fin` replaces the outcome of `body`. -/
def tryFinally {α : Type} (body : Js α) (fin : Js Unit) : Js α := fun w =>
  match body w with
  | (r, w1) =>
    match fin w1 with
    | (.ok _, w2) => (r, w2)
    | (.thrown e, w2) => (.thrown e, w2)

end Js

instance : Monad Js where
  pure := Js.ret
  bind := Js.andThen

/-! ## Primitive operations -/

/-- Records an external call. -/
def emit (e : Event) : Js Unit := fun w =>
  (.ok (), { w with trace := w.trace ++ [e] })

/-- The call `fs.existsSync(p)`. -/
def existsSync (p : String) : Js Bool := fun w => (.ok (decide (p ∈ w.files)), w)

/-- The call `fs.mkdirSync(p)`. -/
def mkdirSync (sc : Scenario) (p : String) : Js Unit := do
  emit (.mkdir p)
  if sc.mkdirThrows then Js.raise "mkdir failed"
  else fun w => (.ok (), { w with files := w.files ++ [p] })

/-- The call `fs.writeFileSync(p, data, "base64")`. -/
def writeFileSync (sc : Scenario) (p data : String) : Js Unit := do
  emit (.writeFile p data)
  if sc.writeThrows then Js.raise "write failed"
  else fun w => (.ok (), { w with files := w.files ++ [p] })

/-- The call `fs.unlinkSync(p)`. -/
def unlinkSync (sc : Scenario) (p : String) : Js Unit := do
  emit (.unlink p)
  if sc.unlinkThrows p then Js.raise "unlink failed"
  else fun w => (.ok (), { w with files := w.files.filter (fun q => q != p) })

/-- The call `msg.downloadMedia()`; `none` is a falsy result. -/
def downloadMedia (sc : Scenario) (msg : Message) : Js (Option String) := do
  emit (.downloadMedia msg.id)
  match sc.download with
  | .throws => Js.raise "download failed"
  | .noMedia => pure none
  | .media data => pure (some data)

/-- The call `axios.post(url, body)`, giving `response.data`. With the default
`validateStatus` the promise rejects unless the status is 2xx. -/
def axiosPost (sc : Scenario) (url : String) (body : ReqBody) : Js JsVal := do
  emit (.post url body)
  match sc.http with
  | .networkError => Js.raise "network error"
  | .timeout => Js.raise "timeout"
  | .response status data =>
    if 200 ≤ status ∧ status < 300 then pure data
    else Js.raise "request failed with status code"

/-- Property access `v.name` for a name that no prototype defines. -/
def getProp (v : JsVal) (name : String) : Js JsVal :=
  match v with
  | .undefined => Js.raise "TypeError: cannot read properties of undefined"
  | .null => Js.raise "TypeError: cannot read properties of null"
  | .obj fields => pure ((fields.lookup name).getD .undefined)
  | _ => pure .undefined

/-- The call `msg.reply(content)`. -/
def reply (sc : Scenario) (content : JsVal) : Js Unit := do
  emit (.reply content)
  if sc.replyThrows then Js.raise "reply failed" else pure ()

/-- The chain `ffmpeg(input)...output(output).on(...).on(...)` followed by
`command.run()`: the command is started and the two callbacks are registered. -/
def ffmpegRun (sc : Scenario) (msg : Message) (inputPath outputPath : String) : Js Unit := do
  if sc.ffmpegThrows then Js.raise "ffmpeg failed to start"
  else
    emit (.ffmpegRun inputPath outputPath)
    fun w => (.ok (), { w with job := some { msg := msg, inputPath := inputPath, outputPath := outputPath } })

/-- The segments of a path: the pieces between the `/` characters. -/
def splitSlash : List Char → List (List Char)
  | [] => [[]]
  | c :: cs =>
    if c = '/' then [] :: splitSlash cs
    else
      match splitSlash cs with
      | [] => [[c]]
      | seg :: rest => (c :: seg) :: rest

/-- One step of Node's `normalizeString`: the stack holds the kept segments,
last one first. Empty segments and `.` are skipped, `..` removes the last kept
segment, or is kept itself when there is none to remove and the path is
relative. -/
def pushSegment (allowAboveRoot : Bool) (stack : List (List Char)) (seg : List Char) :
    List (List Char) :=
  if seg = [] ∨ seg = ['.'] then stack
  else if seg = ['.', '.'] then
    match stack with
    | [] => if allowAboveRoot then [['.', '.']] else []
    | top :: rest =>
      if top = ['.', '.'] then (if allowAboveRoot then ['.', '.'] :: top :: rest else top :: rest)
      else rest
  else seg :: stack

/-- Segments joined with `/`. -/
def joinSegments : List (List Char) → List Char
  | [] => []
  | [s] => s
  | s :: t :: rest => s ++ '/' :: joinSegments (t :: rest)

/-- Node's `normalizeString(path, allowAboveRoot, "/")`. -/
def normalizeString (path : List Char) (allowAboveRoot : Bool) : List Char :=
  joinSegments ((splitSlash path).foldl (pushSegment allowAboveRoot) []).reverse

/-- Node's `path.posix.normalize(path)`. -/
def normalizeChars (path : List Char) : List Char :=
  if path = [] then ['.']
  else
    let isAbsolute := path.head? == some '/'
    let trailingSeparator := path.getLast? == some '/'
    let p := normalizeString path (!isAbsolute)
    if p = [] then
      (if isAbsolute then ['/'] else if trailingSeparator then ['.', '/'] else ['.'])
    else
      (if isAbsolute then ['/'] else []) ++ p ++ (if trailingSeparator then ['/'] else [])

/-- The call `path.join(dir, name)` of Node's POSIX `path` module: the
non-empty arguments are joined with `/` and the result is normalized. -/
def pathJoin (dir name : String) : String :=
  if dir.data = [] then (if name.data = [] then "." else ⟨normalizeChars name.data⟩)
  else if name.data = [] then ⟨normalizeChars dir.data⟩
  else ⟨normalizeChars (dir.data ++ '/' :: name.data)⟩

/-! ## api-client.js -/

/-- The URL of the text relay: the module constant
`BACKEND_URL = process.env.BACKEND_URL || "http://localhost:8000"` followed by `/webhook`. -/
def textWebhookUrl (env : Env) : String :=
  envOr env.BACKEND_URL "http://localhost:8000" ++ "/webhook"

/-- The function `sendToBackend(msg)` of api-client.js. -/
def sendToBackend (env : Env) (sc : Scenario) (msg : Message) : Js JsVal :=
  Js.tryCatch
    (do
      let payload : Payload :=
        { «from» := msg.«from», body := msg.body, timestamp := msg.timestamp, type := msg.type }
      let response ← axiosPost sc (textWebhookUrl env) (.json payload)
      getProp response "response")
    (fun _ => pure .null)

/-! ## whatsapp-client.js -/

/-- The URL of the audio relay: the template literal with `process.env.BACKEND_URL`
followed by `/webhook`. -/
def audioWebhookUrl (env : Env) : String :=
  envTemplate env.BACKEND_URL ++ "/webhook"

/-- The method `sendAudioToBackend(msg, filePath)`. -/
def sendAudioToBackend (env : Env) (sc : Scenario) (msg : Message) (filePath : String) : Js Unit := do
  if sc.formThrows then Js.raise "form-data failed"
  else
    let form : List (String × FormValue) :=
      [("from", .text msg.«from»), ("message_type", .text "audio"),
       ("timestamp", .number msg.timestamp), ("audio_file", .fileStream filePath)]
    Js.tryCatch
      (do
        let response ← axiosPost sc (audioWebhookUrl env) (.form form)
        let r ← getProp response "response"
        if r.truthy then reply sc r else pure ())
      (fun _ => pure ())

/-- Name of the input file of the job of message `id`. -/
def inputName (id : String) : String := id ++ ".ogg"

/-- Name of the output file of the job of message `id`. -/
def outputName (id : String) : String := id ++ "_accelerated.ogg"

/-- The two temporary file names of the job of message `id`. -/
def jobFiles (id : String) : List String := [inputName id, outputName id]

/-- The local `inputPath` of `handleAudioMessage`. -/
def inputPath (env : Env) (msg : Message) : String := pathJoin env.tempDir (inputName msg.id)

/-- The local `outputPath` of `handleAudioMessage`. -/
def outputPath (env : Env) (msg : Message) : String := pathJoin env.tempDir (outputName msg.id)

/-- The two temporary paths of the job of a message. -/
def jobPaths (env : Env) (msg : Message) : List String := [inputPath env msg, outputPath env msg]

/-- The callback registered for the ffmpeg signal `end`. -/
def onEnd (env : Env) (sc : Scenario) (msg : Message) (inputPath outputPath : String) : Js Unit :=
  Js.tryFinally
    (Js.tryCatch (sendAudioToBackend env sc msg outputPath) (fun _ => pure ()))
    (do
      if (← existsSync inputPath) then unlinkSync sc inputPath
      if (← existsSync outputPath) then unlinkSync sc outputPath)

/-- The callback registered for the ffmpeg signal `error`. -/
def onError (sc : Scenario) (inputPath : String) : Js Unit := do
  if (← existsSync inputPath) then unlinkSync sc inputPath

/-- The method `handleAudioMessage(msg)`. It returns once the ffmpeg command
has been started. -/
def handleAudioMessage (env : Env) (sc : Scenario) (msg : Message) : Js Unit :=
  Js.tryCatch
    (do
      let media ← downloadMedia sc msg
      match media with
      | none => pure ()
      | some data =>
        if !(← existsSync env.tempDir) then mkdirSync sc env.tempDir
        writeFileSync sc (inputPath env msg) data
        ffmpegRun sc msg (inputPath env msg) (outputPath env msg))
    (fun _ => pure ())

/-- The local `senderNumber` of the message listener. -/
def senderNumber (msg : Message) : String := jsReplace msg.«from» "@c.us" ""

/-- The test `allowedNumber && senderNumber !== allowedNumber`. -/
def notAllowed (env : Env) (msg : Message) : Bool :=
  envTruthy env.ALLOWED_NUMBER && (env.ALLOWED_NUMBER != some (senderNumber msg))

/-- The `try` block of the message listener: dispatch on the type. -/
def dispatch (env : Env) (sc : Scenario) (msg : Message) : Js Unit := do
  if msg.hasMedia && (msg.type == "audio" || msg.type == "ptt") then
    handleAudioMessage env sc msg
  else if msg.type == "chat" then
    let response ← sendToBackend env sc msg
    if response.truthy then reply sc response else pure ()
  else pure ()

/-- The listener registered for the client event `message`. -/
def messageHandler (env : Env) (sc : Scenario) (msg : Message) : Js Unit :=
  if notAllowed env msg then pure ()
  else Js.tryCatch (dispatch env sc msg) (fun _ => pure ())

/-! ## One message from arrival to the end of its callbacks -/

/-- What happened to one message: the outcome of the listener, the outcome of
the ffmpeg callback that ran (if a command was started), the world when the
listener returned and the world at the end. -/
structure Run where
  handler : Outcome Unit
  callback : Option (Outcome Unit)
  atReturn : World
  final : World

/-- The event loop for one message: the listener runs to completion; if it
started an ffmpeg command, the command later signals `end` (the output file
has been written) or `error` (the output file may have been written), and the
matching callback runs. The signal comes from the child process, so it is
delivered after the promise of the listener has settled. -/
def processMessage (env : Env) (sc : Scenario) (msg : Message) (files : List String) : Run :=
  match messageHandler env sc msg (World.start files) with
  | (r, w1) =>
    let w2 : World := { w1 with trace := w1.trace ++ [.handlerReturned] }
    match w1.job with
    | none => { handler := r, callback := none, atReturn := w1, final := w2 }
    | some job =>
      match sc.signal with
      | .ended =>
        match onEnd env sc job.msg job.inputPath job.outputPath
            { w2 with files := w2.files ++ [job.outputPath] } with
        | (r2, w3) => { handler := r, callback := some r2, atReturn := w1, final := w3 }
      | .errored outputWritten =>
        match onError sc job.inputPath
            (if outputWritten then { w2 with files := w2.files ++ [job.outputPath] } else w2) with
        | (r2, w3) => { handler := r, callback := some r2, atReturn := w1, final := w3 }

/-! ## Observations on a trace -/

/-- The relay calls (HTTP POSTs) of a trace, in order. -/
def postCalls : List Event → List (String × ReqBody)
  | [] => []
  | .post url body :: t => (url, body) :: postCalls t
  | _ :: t => postCalls t

/-- The contents of the `msg.reply` calls of a trace, in order. -/
def replyCalls : List Event → List JsVal
  | [] => []
  | .reply c :: t => c :: replyCalls t
  | _ :: t => replyCalls t

/-- The paths of the `unlinkSync` calls of a trace, in order. -/
def unlinkCalls : List Event → List String
  | [] => []
  | .unlink p :: t => p :: unlinkCalls t
  | _ :: t => unlinkCalls t

/-- The number of `downloadMedia` calls of a trace. -/
def downloadCalls : List Event → Nat
  | [] => 0
  | .downloadMedia _ :: t => downloadCalls t + 1
  | _ :: t => downloadCalls t

/-- The paths written by `writeFileSync` or created by `mkdirSync`. -/
def writeCalls : List Event → List String
  | [] => []
  | .writeFile p _ :: t => p :: writeCalls t
  | .mkdir p :: t => p :: writeCalls t
  | _ :: t => writeCalls t

/-- The text relay posted a JSON payload. -/
def tookTextPath : List Event → Bool
  | [] => false
  | .post _ (.json _) :: _ => true
  | _ :: t => tookTextPath t

/-- The audio handler was entered: it asked for the media. -/
def tookAudioPath (t : List Event) : Bool := decide (0 < downloadCalls t)

/-! ## Values read off a scenario -/

/-- The value of `response.data.response` when the POST and the property
access succeed, `null` when either raises. -/
def relayResult (sc : Scenario) : JsVal :=
  match sc.http with
  | .networkError => .null
  | .timeout => .null
  | .response status data =>
    if 200 ≤ status ∧ status < 300 then
      match data with
      | .undefined => .null
      | .null => .null
      | .obj fields => (fields.lookup "response").getD .undefined
      | _ => .undefined
    else .null

/-- The payload object literal of `sendToBackend`. -/
def textPayload (msg : Message) : Payload :=
  { «from» := msg.«from», body := msg.body, timestamp := msg.timestamp, type := msg.type }

/-- The external calls of the text branch of the dispatcher. -/
def textEvents (env : Env) (sc : Scenario) (msg : Message) : List Event :=
  .post (textWebhookUrl env) (.json (textPayload msg)) ::
    (if (relayResult sc).truthy then [.reply (relayResult sc)] else [])

/-- The external calls of `sendAudioToBackend`. -/
def audioRelayEvents (env : Env) (sc : Scenario) (msg : Message) (filePath : String) :
    List Event :=
  if sc.formThrows then []
  else
    .post (audioWebhookUrl env)
      (.form [("from", .text msg.«from»), ("message_type", .text "audio"),
        ("timestamp", .number msg.timestamp), ("audio_file", .fileStream filePath)]) ::
      (if (relayResult sc).truthy then [.reply (relayResult sc)] else [])

/-! ## Concrete inputs -/

/-- No allow-list, no backend URL. -/
def envUnset : Env := { ALLOWED_NUMBER := none, BACKEND_URL := none, tempDir := "/app/temp" }

/-- Allow-list set to one number. -/
def envAllowOne : Env :=
  { ALLOWED_NUMBER := some "5511888888888", BACKEND_URL := some "http://backend:8000",
    tempDir := "/app/temp" }

/-- Every step succeeds and the backend answers with the object whose
`response` field is the string "hi there". -/
def scHappy : Scenario :=
  { download := .media "T2dnUw==", mkdirThrows := false, writeThrows := false,
    ffmpegThrows := false, signal := .ended, formThrows := false,
    http := .response 200 (.obj [("response", .str "hi there")]),
    replyThrows := false, unlinkThrows := fun _ => false }

/-- As `scHappy`, but ffmpeg signals an error after writing part of the output. -/
def scTranscodeError : Scenario := { scHappy with signal := .errored true }

/-- As `scHappy`, but every `unlinkSync` raises. -/
def scUnlinkFails : Scenario := { scHappy with unlinkThrows := fun _ => true }

/-- As `scHappy`, but the backend answers 200 with an empty body, which axios
hands over as the empty string. -/
def scEmptyBody : Scenario := { scHappy with http := .response 200 (.str "") }

/-- As `scHappy`, but the backend answers with `response: true`. -/
def scResponseTrue : Scenario :=
  { scHappy with http := .response 200 (.obj [("response", .bool true)]) }

/-- The text message of scenario A. -/
def msgHello : Message :=
  { «from» := "5511999999999", body := "hello", timestamp := 1000, type := "chat",
    hasMedia := false, id := "abc122" }

/-- A text message that carries media. -/
def msgChatWithMedia : Message := { msgHello with hasMedia := true }

/-- The voice note of scenario B. -/
def msgVoice : Message :=
  { «from» := "5511999999999@c.us", body := "", timestamp := 1000, type := "ptt",
    hasMedia := true, id := "abc123" }

/-! ## Running the relay functions -/

theorem sendToBackend_run (env : Env) (sc : Scenario) (msg : Message) (w : World) :
    sendToBackend env sc msg w =
      (.ok (relayResult sc),
        { w with trace := w.trace ++ [.post (textWebhookUrl env) (.json (textPayload msg))] }) := by
  simp only [sendToBackend, Js.tryCatch, axiosPost, emit, bind, Js.andThen, relayResult, pure,
    Js.ret, Js.raise, getProp, textPayload]
  cases h : sc.http with
  | networkError => simp [Js.raise]
  | timeout => simp [Js.raise]
  | response status data =>
    by_cases hs : 200 ≤ status ∧ status < 300
    · cases data <;> simp [hs, Js.raise, Js.ret, getProp, pure]
    · simp [hs, Js.raise]

theorem sendAudioToBackend_run (env : Env) (sc : Scenario) (msg : Message) (filePath : String)
    (w : World) :
    sendAudioToBackend env sc msg filePath w =
      ((if sc.formThrows then .thrown "form-data failed" else .ok ()),
        { w with trace := w.trace ++ audioRelayEvents env sc msg filePath }) := by
  by_cases hf : sc.formThrows = true
  · simp [sendAudioToBackend, audioRelayEvents, hf, Js.raise]
  · cases h : sc.http with
    | networkError =>
      simp [sendAudioToBackend, audioRelayEvents, hf, Js.tryCatch, axiosPost, emit, bind,
        Js.andThen, relayResult, pure, Js.ret, Js.raise, h, JsVal.truthy]
    | timeout =>
      simp [sendAudioToBackend, audioRelayEvents, hf, Js.tryCatch, axiosPost, emit, bind,
        Js.andThen, relayResult, pure, Js.ret, Js.raise, h, JsVal.truthy]
    | response status data =>
      by_cases hs : 200 ≤ status ∧ status < 300
      · cases data with
        | obj fields =>
          cases ht : ((fields.lookup "response").getD JsVal.undefined).truthy <;>
            cases hr : sc.replyThrows <;>
            simp [sendAudioToBackend, audioRelayEvents, hf, Js.tryCatch, axiosPost, emit, bind,
              Js.andThen, relayResult, pure, Js.ret, Js.raise, h, hs, getProp, reply, ht, hr]
        | _ =>
          simp [sendAudioToBackend, audioRelayEvents, hf, Js.tryCatch, axiosPost, emit, bind,
            Js.andThen, relayResult, pure, Js.ret, Js.raise, h, hs, getProp, JsVal.truthy, reply]
      · simp [sendAudioToBackend, audioRelayEvents, hf, Js.tryCatch, axiosPost, emit, bind,
          Js.andThen, relayResult, pure, Js.ret, Js.raise, h, hs, JsVal.truthy]

/-! ## The message listener on a text message -/

theorem messageHandler_chat (env : Env) (sc : Scenario) (msg : Message) (w : World)
    (hauth : notAllowed env msg = false) (htype : msg.type = "chat") :
    messageHandler env sc msg w =
      (.ok (), { w with trace := w.trace ++ textEvents env sc msg }) := by
  have h1 : (msg.hasMedia && (msg.type == "audio" || msg.type == "ptt")) = false := by
    rw [htype]; cases msg.hasMedia <;> decide
  cases ht : (relayResult sc).truthy <;> cases hr : sc.replyThrows <;>
    simp [messageHandler, dispatch, hauth, h1, htype, Js.tryCatch, bind, Js.andThen,
      sendToBackend_run, reply, emit, pure, Js.ret, Js.raise, textEvents, ht, hr]

theorem messageHandler_dropped (env : Env) (sc : Scenario) (msg : Message) (w : World)
    (h : notAllowed env msg = true) :
    messageHandler env sc msg w = (.ok (), w) := by
  simp [messageHandler, h, pure, Js.ret]

theorem postCalls_append (s t : List Event) : postCalls (s ++ t) = postCalls s ++ postCalls t := by
  induction s with
  | nil => rfl
  | cons e s ih => cases e <;> simp [postCalls, ih]

theorem replyCalls_append (s t : List Event) :
    replyCalls (s ++ t) = replyCalls s ++ replyCalls t := by
  induction s with
  | nil => rfl
  | cons e s ih => cases e <;> simp [replyCalls, ih]

theorem unlinkCalls_append (s t : List Event) :
    unlinkCalls (s ++ t) = unlinkCalls s ++ unlinkCalls t := by
  induction s with
  | nil => rfl
  | cons e s ih => cases e <;> simp [unlinkCalls, ih]

theorem downloadCalls_append (s t : List Event) :
    downloadCalls (s ++ t) = downloadCalls s + downloadCalls t := by
  induction s with
  | nil => simp [downloadCalls]
  | cons e s ih =>
    cases e <;> simp [downloadCalls, ih]
    omega

theorem writeCalls_append (s t : List Event) :
    writeCalls (s ++ t) = writeCalls s ++ writeCalls t := by
  induction s with
  | nil => rfl
  | cons e s ih => cases e <;> simp [writeCalls, ih]

theorem processMessage_chat (env : Env) (sc : Scenario) (msg : Message) (files : List String)
    (hauth : notAllowed env msg = false) (htype : msg.type = "chat") :
    processMessage env sc msg files =
      { handler := .ok (), callback := none,
        atReturn := { files := files, trace := textEvents env sc msg, job := none },
        final := { files := files, trace := textEvents env sc msg ++ [.handlerReturned],
                   job := none } } := by
  simp [processMessage, messageHandler_chat env sc msg _ hauth htype, World.start]

theorem processMessage_dropped (env : Env) (sc : Scenario) (msg : Message) (files : List String)
    (h : notAllowed env msg = true) :
    processMessage env sc msg files =
      { handler := .ok (), callback := none,
        atReturn := { files := files, trace := [], job := none },
        final := { files := files, trace := [.handlerReturned], job := none } } := by
  simp [processMessage, messageHandler_dropped env sc msg _ h, World.start]

/-! ## The audio handler -/

theorem tookTextPath_append (s t : List Event) :
    tookTextPath (s ++ t) = (tookTextPath s || tookTextPath t) := by
  induction s with
  | nil => rfl
  | cons e s ih =>
    cases e with
    | post url body => cases body <;> simp [tookTextPath, ih]
    | _ => simp [tookTextPath, ih]

theorem handleAudioMessage_props (env : Env) (sc : Scenario) (msg : Message) (w : World) :
    (handleAudioMessage env sc msg w).1 = .ok () ∧
    unlinkCalls (handleAudioMessage env sc msg w).2.trace = unlinkCalls w.trace ∧
    postCalls (handleAudioMessage env sc msg w).2.trace = postCalls w.trace ∧
    replyCalls (handleAudioMessage env sc msg w).2.trace = replyCalls w.trace ∧
    downloadCalls (handleAudioMessage env sc msg w).2.trace = downloadCalls w.trace + 1 ∧
    tookTextPath (handleAudioMessage env sc msg w).2.trace = tookTextPath w.trace ∧
    ((handleAudioMessage env sc msg w).2.job = w.job ∨
      (handleAudioMessage env sc msg w).2.job =
        some { msg := msg, inputPath := inputPath env msg, outputPath := outputPath env msg }) ∧
    (∀ d, sc.download = .media d → sc.mkdirThrows = false → sc.writeThrows = false →
      sc.ffmpegThrows = false →
      inputPath env msg ∈ (handleAudioMessage env sc msg w).2.files ∧
      (handleAudioMessage env sc msg w).2.job =
        some { msg := msg, inputPath := inputPath env msg, outputPath := outputPath env msg }) := by
  cases hd : sc.download with
  | throws =>
    simp [handleAudioMessage, Js.tryCatch, downloadMedia, hd, emit, bind, Js.andThen, pure,
      Js.ret, Js.raise, unlinkCalls_append, postCalls_append, replyCalls_append,
      downloadCalls_append, tookTextPath_append, unlinkCalls, postCalls, replyCalls,
      downloadCalls, tookTextPath]
  | noMedia =>
    simp [handleAudioMessage, Js.tryCatch, downloadMedia, hd, emit, bind, Js.andThen, pure,
      Js.ret, Js.raise, unlinkCalls_append, postCalls_append, replyCalls_append,
      downloadCalls_append, tookTextPath_append, unlinkCalls, postCalls, replyCalls,
      downloadCalls, tookTextPath]
  | media data =>
    by_cases hdir : env.tempDir ∈ w.files <;>
    cases hm : sc.mkdirThrows <;> cases hw : sc.writeThrows <;> cases hf : sc.ffmpegThrows <;>
    simp [handleAudioMessage, Js.tryCatch, downloadMedia, hd, emit, bind, Js.andThen, pure,
      Js.ret, Js.raise, existsSync, mkdirSync, writeFileSync, ffmpegRun, hdir, hm, hw, hf,
      unlinkCalls_append, postCalls_append, replyCalls_append,
      downloadCalls_append, tookTextPath_append, unlinkCalls, postCalls, replyCalls,
      downloadCalls, tookTextPath]

/-! ## The ffmpeg callbacks -/

theorem onEnd_clean (env : Env) (sc : Scenario) (msg : Message) (inP outP : String) (w : World)
    (hin : sc.unlinkThrows inP = false) (hout : sc.unlinkThrows outP = false) :
    (onEnd env sc msg inP outP w).1 = .ok () ∧
    (∀ f, f ∈ (onEnd env sc msg inP outP w).2.files ↔ f ∈ w.files ∧ f ≠ inP ∧ f ≠ outP) := by
  by_cases h1 : inP ∈ w.files <;> by_cases h2 : outP ∈ w.files <;> by_cases h3 : outP = inP <;>
    cases hf : sc.formThrows <;>
    simp [onEnd, Js.tryFinally, Js.tryCatch, sendAudioToBackend_run, existsSync, unlinkSync, emit,
      bind, Js.andThen, pure, Js.ret, Js.raise, hin, hout, h1, h2, h3, hf]
  all_goals
    intro f hfm
    have e1 : f = inP → inP ∈ w.files := by rintro rfl; exact hfm
    have e2 : f = outP → outP ∈ w.files := by rintro rfl; exact hfm
    tauto

theorem onError_run (sc : Scenario) (inP : String) (w : World)
    (hin : sc.unlinkThrows inP = false) :
    (onError sc inP w).1 = .ok () ∧
    (∀ f, f ∈ (onError sc inP w).2.files ↔ f ∈ w.files ∧ f ≠ inP) := by
  by_cases h1 : inP ∈ w.files <;>
    simp [onError, existsSync, unlinkSync, emit, bind, Js.andThen, pure, Js.ret, Js.raise, hin, h1]
  intro f hfm
  rintro rfl
  exact h1 hfm

theorem onError_keeps_others (sc : Scenario) (inP f : String) (w : World)
    (hne : f ≠ inP) (hf : f ∈ w.files) : f ∈ (onError sc inP w).2.files := by
  by_cases h1 : inP ∈ w.files <;> cases hu : sc.unlinkThrows inP <;>
    simp [onError, existsSync, unlinkSync, emit, bind, Js.andThen, pure, Js.ret, Js.raise, h1, hu,
      hf, hne]

theorem onEnd_trace (env : Env) (sc : Scenario) (msg : Message) (inP outP : String) (w : World) :
    ∃ rest, (onEnd env sc msg inP outP w).2.trace = w.trace ++ rest := by
  by_cases h1 : inP ∈ w.files <;> by_cases h2 : outP ∈ w.files <;> by_cases h3 : outP = inP <;>
    cases hf : sc.formThrows <;> cases hu1 : sc.unlinkThrows inP <;>
    cases hu2 : sc.unlinkThrows outP <;>
    simp [onEnd, Js.tryFinally, Js.tryCatch, sendAudioToBackend_run, existsSync, unlinkSync, emit,
      bind, Js.andThen, pure, Js.ret, Js.raise, h1, h2, h3, hf, hu1, hu2]

theorem onError_trace (sc : Scenario) (inP : String) (w : World) :
    ∃ rest, (onError sc inP w).2.trace = w.trace ++ rest := by
  by_cases h1 : inP ∈ w.files <;> cases hu : sc.unlinkThrows inP <;>
    simp [onError, existsSync, unlinkSync, emit, bind, Js.andThen, pure, Js.ret, Js.raise, h1, hu]

/-! ## The message listener in general -/

theorem tryCatch_swallow (m : Js Unit) (w : World) :
    (Js.tryCatch m (fun _ => pure ()) w).1 = .ok () := by
  simp only [Js.tryCatch]
  rcases h : m w with ⟨r, w1⟩
  cases r <;> simp [pure, Js.ret]

theorem tryCatch_of_ok (m : Js Unit) (w : World) (h : (m w).1 = .ok ()) :
    Js.tryCatch m (fun _ => pure ()) w = m w := by
  simp only [Js.tryCatch]
  rcases hm : m w with ⟨r, w1⟩
  rw [hm] at h
  cases r with
  | ok a => rfl
  | thrown e => simp at h

theorem messageHandler_ok (env : Env) (sc : Scenario) (msg : Message) (w : World) :
    (messageHandler env sc msg w).1 = .ok () := by
  unfold messageHandler
  split
  · rfl
  · exact tryCatch_swallow _ w

theorem messageHandler_audio (env : Env) (sc : Scenario) (msg : Message) (w : World)
    (hauth : notAllowed env msg = false)
    (haudio : (msg.hasMedia && (msg.type == "audio" || msg.type == "ptt")) = true) :
    messageHandler env sc msg w = handleAudioMessage env sc msg w := by
  have h := (handleAudioMessage_props env sc msg w).1
  simp only [messageHandler, hauth, dispatch, haudio]
  exact tryCatch_of_ok _ w h

theorem messageHandler_ignored (env : Env) (sc : Scenario) (msg : Message) (w : World)
    (haudio : (msg.hasMedia && (msg.type == "audio" || msg.type == "ptt")) = false)
    (hchat : msg.type ≠ "chat") :
    messageHandler env sc msg w = (.ok (), w) := by
  cases hn : notAllowed env msg <;>
    simp [messageHandler, dispatch, haudio, hchat, hn, Js.tryCatch, pure, Js.ret]

theorem messageHandler_job (env : Env) (sc : Scenario) (msg : Message) (w : World) :
    (messageHandler env sc msg w).2.job = w.job ∨
    (messageHandler env sc msg w).2.job =
      some { msg := msg, inputPath := inputPath env msg, outputPath := outputPath env msg } := by
  cases hn : notAllowed env msg with
  | true => rw [messageHandler_dropped env sc msg w hn]; exact Or.inl rfl
  | false =>
    cases ha : (msg.hasMedia && (msg.type == "audio" || msg.type == "ptt")) with
    | true =>
      rw [messageHandler_audio env sc msg w hn ha]
      exact (handleAudioMessage_props env sc msg w).2.2.2.2.2.2.1
    | false =>
      by_cases hc : msg.type = "chat"
      · rw [messageHandler_chat env sc msg w hn hc]; exact Or.inl rfl
      · rw [messageHandler_ignored env sc msg w ha hc]; exact Or.inl rfl

theorem messageHandler_no_unlink (env : Env) (sc : Scenario) (msg : Message) (w : World) :
    unlinkCalls (messageHandler env sc msg w).2.trace = unlinkCalls w.trace := by
  cases hn : notAllowed env msg with
  | true => rw [messageHandler_dropped env sc msg w hn]
  | false =>
    cases ha : (msg.hasMedia && (msg.type == "audio" || msg.type == "ptt")) with
    | true =>
      rw [messageHandler_audio env sc msg w hn ha]
      exact (handleAudioMessage_props env sc msg w).2.1
    | false =>
      by_cases hc : msg.type = "chat"
      · rw [messageHandler_chat env sc msg w hn hc]
        by_cases ht : (relayResult sc).truthy = true <;>
          simp [unlinkCalls_append, textEvents, unlinkCalls, ht]
      · rw [messageHandler_ignored env sc msg w ha hc]

/-! ## The event loop for one message -/

theorem processMessage_handler (env : Env) (sc : Scenario) (msg : Message) (files : List String) :
    (processMessage env sc msg files).handler = .ok () ∧
    (processMessage env sc msg files).atReturn = (messageHandler env sc msg (World.start files)).2 := by
  have hok := messageHandler_ok env sc msg (World.start files)
  unfold processMessage
  rcases hmh : messageHandler env sc msg (World.start files) with ⟨r, w1⟩
  rw [hmh] at hok
  simp only at hok
  subst hok
  cases hj : w1.job with
  | none => simp [hj]
  | some job =>
    cases hs : sc.signal with
    | ended => simp [hj, hs]
    | errored written => cases written <;> simp [hj, hs]

theorem processMessage_job_none (env : Env) (sc : Scenario) (msg : Message) (files : List String)
    (hj : (messageHandler env sc msg (World.start files)).2.job = none) :
    (processMessage env sc msg files).callback = none ∧
    (processMessage env sc msg files).final =
      { (messageHandler env sc msg (World.start files)).2 with
        trace := (messageHandler env sc msg (World.start files)).2.trace ++ [.handlerReturned] } := by
  unfold processMessage
  rcases hmh : messageHandler env sc msg (World.start files) with ⟨r, w1⟩
  rw [hmh] at hj
  simp only at hj
  simp [hj]

theorem processMessage_ended (env : Env) (sc : Scenario) (msg : Message) (files : List String)
    (job : Job) (hj : (messageHandler env sc msg (World.start files)).2.job = some job)
    (hs : sc.signal = .ended) :
    (processMessage env sc msg files).callback =
      some (onEnd env sc job.msg job.inputPath job.outputPath
        { files := (messageHandler env sc msg (World.start files)).2.files ++ [job.outputPath],
          trace := (messageHandler env sc msg (World.start files)).2.trace ++ [.handlerReturned],
          job := some job }).1 ∧
    (processMessage env sc msg files).final =
      (onEnd env sc job.msg job.inputPath job.outputPath
        { files := (messageHandler env sc msg (World.start files)).2.files ++ [job.outputPath],
          trace := (messageHandler env sc msg (World.start files)).2.trace ++ [.handlerReturned],
          job := some job }).2 := by
  unfold processMessage
  rcases hmh : messageHandler env sc msg (World.start files) with ⟨r, w1⟩
  rw [hmh] at hj
  simp only at hj
  simp [hj, hs]

theorem processMessage_errored (env : Env) (sc : Scenario) (msg : Message) (files : List String)
    (job : Job) (hj : (messageHandler env sc msg (World.start files)).2.job = some job)
    (written : Bool) (hs : sc.signal = .errored written) :
    (processMessage env sc msg files).callback =
      some (onError sc job.inputPath
        { files := (messageHandler env sc msg (World.start files)).2.files ++
            (if written then [job.outputPath] else []),
          trace := (messageHandler env sc msg (World.start files)).2.trace ++ [.handlerReturned],
          job := some job }).1 ∧
    (processMessage env sc msg files).final =
      (onError sc job.inputPath
        { files := (messageHandler env sc msg (World.start files)).2.files ++
            (if written then [job.outputPath] else []),
          trace := (messageHandler env sc msg (World.start files)).2.trace ++ [.handlerReturned],
          job := some job }).2 := by
  unfold processMessage
  rcases hmh : messageHandler env sc msg (World.start files) with ⟨r, w1⟩
  rw [hmh] at hj
  simp only at hj
  cases written <;> simp [hj, hs]

theorem messageHandler_start_job (env : Env) (sc : Scenario) (msg : Message)
    (files : List String) :
    (messageHandler env sc msg (World.start files)).2.job = none ∨
    (messageHandler env sc msg (World.start files)).2.job =
      some { msg := msg, inputPath := inputPath env msg, outputPath := outputPath env msg } :=
  messageHandler_job env sc msg (World.start files)

/-! ## Claims -/

/-- C6, as stated, fails: a 200 answer with an empty body is a response with
no usable body, and `sendToBackend` returns `undefined` for it, not `null`. -/
theorem empty_body_returns_undefined :
    (sendToBackend envUnset scEmptyBody msgHello (World.start [])).1 = .ok .undefined ∧
    (sendToBackend envUnset scEmptyBody msgHello (World.start [])).1 ≠ .ok .null :=
  ⟨rfl, by rw [show (sendToBackend envUnset scEmptyBody msgHello (World.start [])).1
    = .ok .undefined from rfl]; simp⟩

/-- C6, amended: `sendToBackend` never raises to its caller, whatever the
message and the outcome of the POST. It returns `null` when the POST fails
(network error, timeout, a status outside 2xx) and when `response.data` is
`null` or `undefined`; when the POST succeeds with a JSON object it returns
exactly the value of the `response` field of that object (`undefined` when the
object has no such field); for every other 2xx body (a string, such as the
empty body, a number, a boolean, an array) it returns `undefined`. -/
theorem sendToBackend_never_raises (env : Env) (sc : Scenario) (msg : Message) (w : World) :
    (∃ v, (sendToBackend env sc msg w).1 = .ok v) ∧
    (sc.http = .networkError → (sendToBackend env sc msg w).1 = .ok .null) ∧
    (sc.http = .timeout → (sendToBackend env sc msg w).1 = .ok .null) ∧
    (∀ status data, sc.http = .response status data → ¬(200 ≤ status ∧ status < 300) →
      (sendToBackend env sc msg w).1 = .ok .null) ∧
    (∀ status data, sc.http = .response status data → (200 ≤ status ∧ status < 300) →
      (data = .null ∨ data = .undefined) → (sendToBackend env sc msg w).1 = .ok .null) ∧
    (∀ status fields, sc.http = .response status (.obj fields) → (200 ≤ status ∧ status < 300) →
      (sendToBackend env sc msg w).1 = .ok ((fields.lookup "response").getD .undefined)) ∧
    (∀ status data, sc.http = .response status data → (200 ≤ status ∧ status < 300) →
      data ≠ .null → data ≠ .undefined → (∀ fields, data ≠ .obj fields) →
      (sendToBackend env sc msg w).1 = .ok .undefined) := by
  rw [sendToBackend_run]
  refine ⟨⟨_, rfl⟩, ?_, ?_, ?_, ?_, ?_, ?_⟩
  · intro h; simp [relayResult, h]
  · intro h; simp [relayResult, h]
  · intro status data h hs; simp [relayResult, h, hs]
  · intro status data h hs hd
    rcases hd with rfl | rfl <;> simp [relayResult, h, hs]
  · intro status fields h hs; simp [relayResult, h, hs]
  · intro status data h hs h1 h2 h3
    cases data with
    | null => exact absurd rfl h1
    | undefined => exact absurd rfl h2
    | obj fields => exact absurd rfl (h3 fields)
    | _ => simp [relayResult, h, hs]

/-- Scenario for C6: the backend answers 200 with the object whose `response`
field is "hi there", and `sendToBackend` returns that string. -/
theorem sendToBackend_never_raises_witness :
    (sendToBackend envUnset scHappy msgHello (World.start [])).1 = .ok (.str "hi there") :=
  (sendToBackend_never_raises envUnset scHappy msgHello (World.start [])).2.2.2.2.2.1
    200 [("response", .str "hi there")] rfl (by decide)

/-- C2, as stated, fails: when the backend answers with `response: true` the
relay returns `true`, which is not a non-empty string, and the dispatcher
still makes one `msg.reply` call. -/
theorem reply_on_truthy_non_string :
    (sendToBackend envUnset scResponseTrue msgHello (World.start [])).1 = .ok (.bool true) ∧
    replyCalls (processMessage envUnset scResponseTrue msgHello []).final.trace = [.bool true] ∧
    ¬ ((replyCalls (processMessage envUnset scResponseTrue msgHello []).final.trace).length = 1 ↔
        ∃ s, JsVal.bool true = .str s ∧ s ≠ "") := by
  refine ⟨rfl, rfl, ?_⟩
  rw [show replyCalls (processMessage envUnset scResponseTrue msgHello []).final.trace
    = [.bool true] from rfl]
  simp

/-- C2, amended: for every authorized message of type `chat` the dispatcher
makes exactly one relay call, a POST to the text webhook whose JSON body has
`from`, `body` and `timestamp` copied from the message and `type` equal to
"chat". With `ret` the value the relay returns, there is exactly one
`msg.reply` call, with content `ret`, when `ret` is truthy, and none
otherwise; when `ret` is a string that is exactly when it is non-empty, and
when `ret` is `null` or `undefined` there is no reply. -/
theorem text_message_relayed_once (env : Env) (sc : Scenario) (msg : Message)
    (files : List String) (hauth : notAllowed env msg = false) (htype : msg.type = "chat")
    (ret : JsVal) (hret : (sendToBackend env sc msg (World.start files)).1 = .ok ret) :
    postCalls (processMessage env sc msg files).final.trace =
      [(textWebhookUrl env,
        .json
          { «from» := msg.«from», body := msg.body, timestamp := msg.timestamp,
            type := "chat" })] ∧
    replyCalls (processMessage env sc msg files).final.trace =
      (if ret.truthy then [ret] else []) ∧
    ((replyCalls (processMessage env sc msg files).final.trace).length = 1 ↔ ret.truthy = true) ∧
    ((replyCalls (processMessage env sc msg files).final.trace).length = 0 ↔
      ret.truthy = false) ∧
    (∀ s, ret = .str s →
      ((replyCalls (processMessage env sc msg files).final.trace).length = 1 ↔ s ≠ "")) ∧
    (ret = .null ∨ ret = .undefined →
      replyCalls (processMessage env sc msg files).final.trace = []) := by
  rw [sendToBackend_run] at hret
  simp only [Outcome.ok.injEq] at hret
  rw [processMessage_chat env sc msg files hauth htype]
  simp only [textEvents, hret, textPayload, htype]
  cases ht : ret.truthy
  · simp [postCalls, replyCalls]
    intro s hrs
    subst hrs
    simpa [JsVal.truthy] using ht
  · simp [postCalls, replyCalls]
    refine ⟨?_, ?_⟩
    · intro s hrs
      subst hrs
      simpa [JsVal.truthy] using ht
    · constructor <;> (intro h; subst h; simp [JsVal.truthy] at ht)

/-- Scenario A: sender "5511999999999", body "hello", timestamp 1000, no
allow-list, backend answer with `response` equal to "hi there": one relay call
with that payload and the single reply "hi there". -/
theorem text_message_relayed_once_witness :
    postCalls (processMessage envUnset scHappy msgHello []).final.trace =
      [("http://localhost:8000/webhook",
        .json { «from» := "5511999999999", body := "hello", timestamp := 1000, type := "chat" })] ∧
    replyCalls (processMessage envUnset scHappy msgHello []).final.trace = [.str "hi there"] :=
  ⟨(text_message_relayed_once envUnset scHappy msgHello [] rfl rfl (.str "hi there") rfl).1,
    (text_message_relayed_once envUnset scHappy msgHello [] rfl rfl (.str "hi there") rfl).2.1⟩

theorem audio_condition (msg : Message) (hmedia : msg.hasMedia = true)
    (htype : msg.type = "audio" ∨ msg.type = "ptt") :
    (msg.hasMedia && (msg.type == "audio" || msg.type == "ptt")) = true := by
  rcases htype with h | h <;> simp [hmedia, h]

theorem audio_condition_iff (msg : Message) :
    (msg.hasMedia && (msg.type == "audio" || msg.type == "ptt")) = true ↔
      msg.hasMedia = true ∧ (msg.type = "audio" ∨ msg.type = "ptt") := by
  simp

theorem notAllowed_of_unset (env : Env) (msg : Message)
    (h : env.ALLOWED_NUMBER = none ∨ env.ALLOWED_NUMBER = some "") :
    notAllowed env msg = false := by
  rcases h with h | h <;> simp [notAllowed, h, envTruthy]

theorem notAllowed_of_other (env : Env) (msg : Message) (a : String)
    (hcfg : env.ALLOWED_NUMBER = some a) (hne : a ≠ "") (hdiff : senderNumber msg ≠ a) :
    notAllowed env msg = true := by
  simp [notAllowed, hcfg, envTruthy, hne]
  exact fun h => hdiff h.symm

/-- C1: in the `message` listener, when `ALLOWED_NUMBER` is configured (set to
a non-empty string) and the sender number the listener computes (`msg.from`
with "@c.us" removed) differs from it, the message is dropped without any
external call: no relay call, no reply, no media download, no file written, no
ffmpeg callback, and the files are unchanged. When `ALLOWED_NUMBER` is not
configured (unset, or empty, which JavaScript treats alike) the authorization
step drops nothing: every `chat` message makes its relay call and every media
message of type `audio` or `ptt` enters the audio handler, whatever the sender. -/
theorem authorization_gate (env : Env) (sc : Scenario) (msg : Message) (files : List String) :
    (∀ a, env.ALLOWED_NUMBER = some a → a ≠ "" → senderNumber msg ≠ a →
      (processMessage env sc msg files).handler = .ok () ∧
      (processMessage env sc msg files).callback = none ∧
      (processMessage env sc msg files).final.trace = [.handlerReturned] ∧
      postCalls (processMessage env sc msg files).final.trace = [] ∧
      replyCalls (processMessage env sc msg files).final.trace = [] ∧
      downloadCalls (processMessage env sc msg files).final.trace = 0 ∧
      writeCalls (processMessage env sc msg files).final.trace = [] ∧
      (processMessage env sc msg files).final.files = files) ∧
    ((env.ALLOWED_NUMBER = none ∨ env.ALLOWED_NUMBER = some "") →
      notAllowed env msg = false ∧
      (msg.type = "chat" →
        postCalls (processMessage env sc msg files).atReturn.trace =
          [(textWebhookUrl env, .json (textPayload msg))]) ∧
      (msg.hasMedia = true → (msg.type = "audio" ∨ msg.type = "ptt") →
        downloadCalls (processMessage env sc msg files).atReturn.trace = 1)) := by
  constructor
  · intro a hcfg hne hdiff
    rw [processMessage_dropped env sc msg files (notAllowed_of_other env msg a hcfg hne hdiff)]
    simp [postCalls, replyCalls, downloadCalls, writeCalls]
  · intro h
    have hauth := notAllowed_of_unset env msg h
    refine ⟨hauth, ?_, ?_⟩
    · intro htype
      rw [processMessage_chat env sc msg files hauth htype]
      by_cases ht : (relayResult sc).truthy = true <;> simp [textEvents, postCalls, ht]
    · intro hmedia htype
      rw [(processMessage_handler env sc msg files).2,
        messageHandler_audio env sc msg _ hauth (audio_condition msg hmedia htype)]
      simpa [World.start, downloadCalls] using
        (handleAudioMessage_props env sc msg (World.start files)).2.2.2.2.1

/-- Scenario for C1: allow-list "5511888888888", message from "5511999999999":
nothing but the return of the listener happens. -/
theorem authorization_gate_witness :
    (processMessage envAllowOne scHappy msgHello []).final.trace = [.handlerReturned] :=
  ((authorization_gate envAllowOne scHappy msgHello []).1 "5511888888888" rfl
    (by decide) (by decide)).2.2.1

/-- C5, as stated, fails: a `chat` message that carries media is authorized
and still takes the text relay path. -/
theorem chat_with_media_takes_text_path :
    ¬ (tookTextPath (processMessage envUnset scHappy msgChatWithMedia []).atReturn.trace = true ↔
        (msgChatWithMedia.type = "chat" ∧ msgChatWithMedia.hasMedia = false)) := by
  intro h
  have h1 : tookTextPath (processMessage envUnset scHappy msgChatWithMedia []).atReturn.trace
      = true := rfl
  have h2 := (h.1 h1).2
  exact absurd h2 (by decide)

/-- C5, amended: for every authorized message, whatever its type and
`hasMedia`: the text relay path is taken exactly when the type is `chat`
(with or without media); the audio path is taken exactly when `hasMedia` is
true and the type is `audio` or `ptt`; in every other case the message is
ignored: no external call at all, so no relay call and no reply. -/
theorem dispatch_by_type (env : Env) (sc : Scenario) (msg : Message) (files : List String)
    (hauth : notAllowed env msg = false) :
    (tookTextPath (processMessage env sc msg files).atReturn.trace = true ↔ msg.type = "chat") ∧
    (tookAudioPath (processMessage env sc msg files).atReturn.trace = true ↔
      (msg.hasMedia = true ∧ (msg.type = "audio" ∨ msg.type = "ptt"))) ∧
    (msg.type ≠ "chat" → ¬(msg.hasMedia = true ∧ (msg.type = "audio" ∨ msg.type = "ptt")) →
      (processMessage env sc msg files).final.trace = [.handlerReturned] ∧
      (processMessage env sc msg files).callback = none ∧
      postCalls (processMessage env sc msg files).final.trace = [] ∧
      replyCalls (processMessage env sc msg files).final.trace = []) := by
  rw [(processMessage_handler env sc msg files).2]
  cases ha : (msg.hasMedia && (msg.type == "audio" || msg.type == "ptt")) with
  | true =>
    have ha2 := (audio_condition_iff msg).1 ha
    have hnc : msg.type ≠ "chat" := by
      rcases ha2.2 with h | h <;> rw [h] <;> decide
    have hp := handleAudioMessage_props env sc msg (World.start files)
    rw [messageHandler_audio env sc msg _ hauth ha]
    refine ⟨?_, ?_, ?_⟩
    · rw [hp.2.2.2.2.2.1]
      simp [World.start, tookTextPath, hnc]
    · rw [tookAudioPath, hp.2.2.2.2.1]
      simp [ha2]
    · intro _ h
      exact absurd ha2 h
  | false =>
    have ha2 : ¬(msg.hasMedia = true ∧ (msg.type = "audio" ∨ msg.type = "ptt")) := by
      rw [← audio_condition_iff, ha]; simp
    by_cases hc : msg.type = "chat"
    · rw [messageHandler_chat env sc msg _ hauth hc]
      refine ⟨?_, ?_, ?_⟩
      · simp [World.start, textEvents, tookTextPath, hc]
      · by_cases ht : (relayResult sc).truthy = true <;>
          simp [World.start, textEvents, tookAudioPath, downloadCalls, ht, ha2]
      · intro h; exact absurd hc h
    · have hmh := messageHandler_ignored env sc msg (World.start files) ha hc
      have hj : (messageHandler env sc msg (World.start files)).2.job = none := by
        rw [hmh]; rfl
      rw [(processMessage_job_none env sc msg files hj).1,
        (processMessage_job_none env sc msg files hj).2, hmh]
      refine ⟨?_, ?_, ?_⟩
      · simp [World.start, tookTextPath, hc]
      · simp [World.start, tookAudioPath, downloadCalls, ha2]
      · intro _ _
        simp [World.start, postCalls, replyCalls]

/-- Scenario for C5: a `chat` message carrying media, no allow-list: the text
path is taken and the audio path is not. -/
theorem dispatch_by_type_witness :
    (tookTextPath (processMessage envUnset scHappy msgChatWithMedia []).atReturn.trace = true ↔
      msgChatWithMedia.type = "chat") ∧
    tookAudioPath (processMessage envUnset scHappy msgChatWithMedia []).atReturn.trace = false :=
  ⟨(dispatch_by_type envUnset scHappy msgChatWithMedia [] rfl).1, rfl⟩

theorem audioRelayEvents_no_unlink (env : Env) (sc : Scenario) (msg : Message) (fp : String) :
    unlinkCalls (audioRelayEvents env sc msg fp) = [] := by
  cases hf : sc.formThrows <;> cases ht : (relayResult sc).truthy <;>
    simp [audioRelayEvents, unlinkCalls, hf, ht]

theorem processMessage_trace_after_return (env : Env) (sc : Scenario) (msg : Message)
    (files : List String) :
    ∃ rest, (processMessage env sc msg files).final.trace =
      (processMessage env sc msg files).atReturn.trace ++ .handlerReturned :: rest := by
  rw [(processMessage_handler env sc msg files).2]
  rcases hj : (messageHandler env sc msg (World.start files)).2.job with _ | job
  · exact ⟨[], by rw [(processMessage_job_none env sc msg files hj).2]⟩
  · cases hs : sc.signal with
    | ended =>
      rw [(processMessage_ended env sc msg files job hj hs).2]
      obtain ⟨rest, h⟩ := onEnd_trace env sc job.msg job.inputPath job.outputPath
        { files := (messageHandler env sc msg (World.start files)).2.files ++ [job.outputPath],
          trace := (messageHandler env sc msg (World.start files)).2.trace ++ [.handlerReturned],
          job := some job }
      exact ⟨rest, by rw [h]; simp⟩
    | errored written =>
      rw [(processMessage_errored env sc msg files job hj written hs).2]
      obtain ⟨rest, h⟩ := onError_trace sc job.inputPath
        { files := (messageHandler env sc msg (World.start files)).2.files ++
            (if written then [job.outputPath] else []),
          trace := (messageHandler env sc msg (World.start files)).2.trace ++ [.handlerReturned],
          job := some job }
      exact ⟨rest, by rw [h]; simp⟩

/-- C3: when the ffmpeg signal `end` fires, whatever the relay step does
(reply sent, no reply, HTTP error, an exception out of `sendAudioToBackend`)
and whatever the files present at that moment, the `end` callback finishes
normally and afterwards neither the input file nor the output file of the
message exists, every other file being untouched; and `sendAudioToBackend`
itself deletes nothing. The deletions themselves are taken not to fail. The
last part states the same for the whole processing of an authorized audio
message whose download, write and transcoding succeed. -/
theorem end_callback_removes_both_files (env : Env) (sc : Scenario) (msg : Message) (w : World)
    (hin : sc.unlinkThrows (inputPath env msg) = false)
    (hout : sc.unlinkThrows (outputPath env msg) = false) :
    (onEnd env sc msg (inputPath env msg) (outputPath env msg) w).1 = .ok () ∧
    inputPath env msg ∉ (onEnd env sc msg (inputPath env msg) (outputPath env msg) w).2.files ∧
    outputPath env msg ∉ (onEnd env sc msg (inputPath env msg) (outputPath env msg) w).2.files ∧
    (∀ f, f ≠ inputPath env msg → f ≠ outputPath env msg →
      (f ∈ (onEnd env sc msg (inputPath env msg) (outputPath env msg) w).2.files ↔ f ∈ w.files)) ∧
    (∀ fp w1, (sendAudioToBackend env sc msg fp w1).2.files = w1.files ∧
      unlinkCalls (sendAudioToBackend env sc msg fp w1).2.trace = unlinkCalls w1.trace) ∧
    (∀ files d, notAllowed env msg = false → msg.hasMedia = true →
      (msg.type = "audio" ∨ msg.type = "ptt") → sc.download = .media d →
      sc.mkdirThrows = false → sc.writeThrows = false → sc.ffmpegThrows = false →
      sc.signal = .ended →
      (processMessage env sc msg files).callback = some (.ok ()) ∧
      inputPath env msg ∉ (processMessage env sc msg files).final.files ∧
      outputPath env msg ∉ (processMessage env sc msg files).final.files) := by
  have hc := onEnd_clean env sc msg (inputPath env msg) (outputPath env msg) w hin hout
  refine ⟨hc.1, ?_, ?_, ?_, ?_, ?_⟩
  · intro h; exact ((hc.2 _).1 h).2.1 rfl
  · intro h; exact ((hc.2 _).1 h).2.2 rfl
  · intro f h1 h2
    rw [hc.2 f]
    exact ⟨fun h => h.1, fun h => ⟨h, h1, h2⟩⟩
  · intro fp w1
    rw [sendAudioToBackend_run]
    simp [unlinkCalls_append, audioRelayEvents_no_unlink]
  · intro files d hauth hmedia htype hd hm hw hf hs
    have hj : (messageHandler env sc msg (World.start files)).2.job =
        some { msg := msg, inputPath := inputPath env msg, outputPath := outputPath env msg } := by
      rw [messageHandler_audio env sc msg _ hauth (audio_condition msg hmedia htype)]
      exact ((handleAudioMessage_props env sc msg (World.start files)).2.2.2.2.2.2.2
        d hd hm hw hf).2
    have hp := processMessage_ended env sc msg files _ hj hs
    have hc2 := onEnd_clean env sc msg (inputPath env msg) (outputPath env msg)
      { files := (messageHandler env sc msg (World.start files)).2.files ++ [outputPath env msg],
        trace := (messageHandler env sc msg (World.start files)).2.trace ++ [.handlerReturned],
        job := some { msg := msg, inputPath := inputPath env msg,
                      outputPath := outputPath env msg } } hin hout
    rw [hp.1, hp.2]
    refine ⟨by rw [hc2.1], ?_, ?_⟩
    · intro h; exact ((hc2.2 _).1 h).2.1 rfl
    · intro h; exact ((hc2.2 _).1 h).2.2 rfl

/-- Scenario B: the voice note "abc123", every step succeeding: after the
`end` callback the scratch directory holds neither `abc123.ogg` nor
`abc123_accelerated.ogg`. -/
theorem end_callback_removes_both_files_witness :
    (processMessage envUnset scHappy msgVoice []).callback = some (.ok ()) ∧
    inputPath envUnset msgVoice ∉ (processMessage envUnset scHappy msgVoice []).final.files ∧
    outputPath envUnset msgVoice ∉ (processMessage envUnset scHappy msgVoice []).final.files :=
  (end_callback_removes_both_files envUnset scHappy msgVoice (World.start []) rfl rfl).2.2.2.2.2
    [] "T2dnUw==" rfl rfl (Or.inr rfl) rfl rfl rfl rfl rfl

/-- C4 fails on the code: the voice note "abc123" whose transcoding signals an
error after part of the output was written. The `error` callback deletes only
the input file; `abc123_accelerated.ogg` is still in the scratch directory
when the failure has been handled. In general the `error` callback leaves
every path other than the input path where it is. -/
theorem error_callback_leaves_output :
    (processMessage envUnset scTranscodeError msgVoice []).callback = some (.ok ()) ∧
    (processMessage envUnset scTranscodeError msgVoice []).final.files =
      ["/app/temp", "/app/temp/abc123_accelerated.ogg"] ∧
    unlinkCalls (processMessage envUnset scTranscodeError msgVoice []).final.trace =
      ["/app/temp/abc123.ogg"] ∧
    outputPath envUnset msgVoice ∈
      (processMessage envUnset scTranscodeError msgVoice []).final.files ∧
    (∀ (sc : Scenario) (inP outP : String) (w : World), outP ≠ inP → outP ∈ w.files →
      outP ∈ (onError sc inP w).2.files) :=
  ⟨rfl, rfl, rfl, by decide, fun sc inP outP w hne h => onError_keeps_others sc inP outP w hne h⟩

/-- C7, as stated, fails: when `unlinkSync` raises inside the `end` callback,
the error leaves the callback. -/
theorem unlink_error_escapes_callback :
    (processMessage envUnset scUnlinkFails msgVoice []).handler = .ok () ∧
    (processMessage envUnset scUnlinkFails msgVoice []).callback =
      some (.thrown "unlink failed") :=
  ⟨rfl, rfl⟩

/-- C7, amended: for every message and every outcome of the media download,
the directory creation, the input-file write, the start of the transcoder, its
terminal signal, the relay call and the reply send, the message listener
completes without raising; and the ffmpeg callback that runs completes without
raising provided the deletions of the two temporary files do not raise. -/
theorem errors_contained (env : Env) (sc : Scenario) (msg : Message) (files : List String) :
    (processMessage env sc msg files).handler = .ok () ∧
    (sc.unlinkThrows (inputPath env msg) = false → sc.unlinkThrows (outputPath env msg) = false →
      ((processMessage env sc msg files).callback = none ∨
        (processMessage env sc msg files).callback = some (.ok ()))) := by
  refine ⟨(processMessage_handler env sc msg files).1, ?_⟩
  intro hin hout
  rcases messageHandler_start_job env sc msg files with hj | hj
  · exact Or.inl (processMessage_job_none env sc msg files hj).1
  · right
    cases hs : sc.signal with
    | ended =>
      rw [(processMessage_ended env sc msg files _ hj hs).1]
      rw [(onEnd_clean env sc msg (inputPath env msg) (outputPath env msg) _ hin hout).1]
    | errored written =>
      rw [(processMessage_errored env sc msg files _ hj written hs).1]
      rw [(onError_run sc (inputPath env msg) _ hin).1]

/-- Scenario for C7: the backend is unreachable and the reply would fail; the
listener and the `end` callback of the voice note both complete normally. -/
theorem errors_contained_witness :
    (processMessage envUnset { scHappy with http := .networkError, replyThrows := true }
      msgVoice []).handler = .ok () ∧
    ((processMessage envUnset { scHappy with http := .networkError, replyThrows := true }
        msgVoice []).callback = none ∨
      (processMessage envUnset { scHappy with http := .networkError, replyThrows := true }
        msgVoice []).callback = some (.ok ())) :=
  ⟨(errors_contained envUnset { scHappy with http := .networkError, replyThrows := true }
      msgVoice []).1,
    (errors_contained envUnset { scHappy with http := .networkError, replyThrows := true }
      msgVoice []).2 rfl rfl⟩

/-- C8 fails on the code: with `BACKEND_URL` unset the text relay posts to the
default URL while the audio relay posts to "undefined/webhook". -/
theorem audio_relay_url_has_no_default :
    textWebhookUrl envUnset = "http://localhost:8000/webhook" ∧
    audioWebhookUrl envUnset = "undefined/webhook" ∧
    (postCalls (processMessage envUnset scHappy msgHello []).final.trace).map Prod.fst =
      ["http://localhost:8000/webhook"] ∧
    (postCalls (processMessage envUnset scHappy msgVoice []).final.trace).map Prod.fst =
      ["undefined/webhook"] :=
  ⟨rfl, rfl, rfl, rfl⟩

theorem webhook_urls_agree_when_set (env : Env) (u : String) (h : env.BACKEND_URL = some u)
    (hne : u ≠ "") :
    textWebhookUrl env = u ++ "/webhook" ∧ audioWebhookUrl env = u ++ "/webhook" := by
  simp [textWebhookUrl, audioWebhookUrl, envOr, envTemplate, h, hne]

/-- C10, as stated, fails: in scenario B the input file is still present and
nothing has been deleted when the listener returns; both deletions come
after the return. -/
theorem handler_returns_before_cleanup :
    inputPath envUnset msgVoice ∈ (processMessage envUnset scHappy msgVoice []).atReturn.files ∧
    unlinkCalls (processMessage envUnset scHappy msgVoice []).atReturn.trace = [] ∧
    (processMessage envUnset scHappy msgVoice []).final.trace =
      (processMessage envUnset scHappy msgVoice []).atReturn.trace ++
        [.handlerReturned,
         .post "undefined/webhook"
           (.form [("from", .text "5511999999999@c.us"), ("message_type", .text "audio"),
             ("timestamp", .number 1000),
             ("audio_file", .fileStream "/app/temp/abc123_accelerated.ogg")]),
         .reply (.str "hi there"),
         .unlink "/app/temp/abc123.ogg",
         .unlink "/app/temp/abc123_accelerated.ogg"] :=
  ⟨by decide, rfl, rfl⟩

/-- C10, amended: for every authorized audio message, when the listener (and
`handleAudioMessage`, which it awaits) returns, no temporary file has been
deleted, and if the download, the write and the start of ffmpeg succeeded the
input file is present; every later call, and so every deletion, is made by
the ffmpeg callback after the return. -/
theorem deletions_follow_handler_return (env : Env) (sc : Scenario) (msg : Message)
    (files : List String) (hauth : notAllowed env msg = false) (hmedia : msg.hasMedia = true)
    (htype : msg.type = "audio" ∨ msg.type = "ptt") :
    unlinkCalls (processMessage env sc msg files).atReturn.trace = [] ∧
    (∀ d, sc.download = .media d → sc.mkdirThrows = false → sc.writeThrows = false →
      sc.ffmpegThrows = false →
      inputPath env msg ∈ (processMessage env sc msg files).atReturn.files) ∧
    (∃ rest, (processMessage env sc msg files).final.trace =
        (processMessage env sc msg files).atReturn.trace ++ .handlerReturned :: rest ∧
      unlinkCalls (processMessage env sc msg files).final.trace = unlinkCalls rest) := by
  have hnu : unlinkCalls (processMessage env sc msg files).atReturn.trace = [] := by
    rw [(processMessage_handler env sc msg files).2, messageHandler_no_unlink]
    rfl
  refine ⟨hnu, ?_, ?_⟩
  · intro d hd hm hw hf
    rw [(processMessage_handler env sc msg files).2,
      messageHandler_audio env sc msg _ hauth (audio_condition msg hmedia htype)]
    exact ((handleAudioMessage_props env sc msg (World.start files)).2.2.2.2.2.2.2
      d hd hm hw hf).1
  · obtain ⟨rest, h⟩ := processMessage_trace_after_return env sc msg files
    refine ⟨rest, h, ?_⟩
    rw [h, unlinkCalls_append, hnu]
    simp [unlinkCalls]

/-- Scenario B for C10: at the return of the listener nothing was deleted. -/
theorem deletions_follow_handler_return_witness :
    unlinkCalls (processMessage envUnset scHappy msgVoice []).atReturn.trace = [] :=
  (deletions_follow_handler_return envUnset scHappy msgVoice [] rfl rfl (Or.inr rfl)).1

/-! ## `path.join` on a plain file name -/

theorem splitSlash_ne_nil (p : List Char) : splitSlash p ≠ [] := by
  cases p with
  | nil => simp [splitSlash]
  | cons c cs =>
    by_cases hc : c = '/'
    · simp [splitSlash, hc]
    · cases h : splitSlash cs <;> simp [splitSlash, hc, h]

theorem splitSlash_plain (n : List Char) (hn : '/' ∉ n) : splitSlash n = [n] := by
  induction n with
  | nil => rfl
  | cons c cs ih =>
    have hc : c ≠ '/' := fun h => hn (by simp [h])
    have hcs : '/' ∉ cs := fun h => hn (List.mem_cons_of_mem _ h)
    simp [splitSlash, hc, ih hcs]

theorem splitSlash_append_plain (d n : List Char) (hn : '/' ∉ n) :
    splitSlash (d ++ '/' :: n) = splitSlash d ++ [n] := by
  induction d with
  | nil => simp [splitSlash, splitSlash_plain n hn]
  | cons c cs ih =>
    by_cases hc : c = '/'
    · simp [splitSlash, hc, ih]
    · cases h : splitSlash cs with
      | nil => exact absurd h (splitSlash_ne_nil cs)
      | cons seg rest => simp [splitSlash, hc, ih, h]

theorem joinSegments_snoc (l : List (List Char)) (n : List Char) :
    joinSegments (l ++ [n]) = (if l = [] then [] else joinSegments l ++ ['/']) ++ n := by
  induction l with
  | nil => simp [joinSegments]
  | cons s t ih =>
    cases t with
    | nil => simp [joinSegments]
    | cons u rest =>
      have ih2 : joinSegments (u :: (rest ++ [n])) = joinSegments (u :: rest) ++ ['/'] ++ n := by
        simpa using ih
      have e : (s :: u :: rest) ++ [n] = s :: u :: (rest ++ [n]) := rfl
      rw [e, joinSegments, ih2]
      simp [joinSegments]

theorem pushSegment_plain (a : Bool) (stack : List (List Char)) (n : List Char)
    (h0 : n ≠ []) (h1 : n ≠ ['.']) (h2 : n ≠ ['.', '.']) :
    pushSegment a stack n = n :: stack := by
  simp [pushSegment, h0, h1, h2]

theorem normalizeString_plain (d n : List Char) (a : Bool) (hn : '/' ∉ n)
    (h0 : n ≠ []) (h1 : n ≠ ['.']) (h2 : n ≠ ['.', '.']) :
    normalizeString (d ++ '/' :: n) a =
      (if ((splitSlash d).foldl (pushSegment a) []).reverse = [] then []
        else joinSegments ((splitSlash d).foldl (pushSegment a) []).reverse ++ ['/']) ++ n := by
  simp only [normalizeString, splitSlash_append_plain d n hn, List.foldl_append, List.foldl_cons,
    List.foldl_nil, pushSegment_plain a _ n h0 h1 h2, List.reverse_cons]
  exact joinSegments_snoc _ n

theorem getLast?_plain (d n : List Char) (hn : '/' ∉ n) (h0 : n ≠ []) :
    ((d ++ '/' :: n).getLast? == some '/') = false := by
  have h : (d ++ '/' :: n).getLast? = n.getLast? := by
    rw [List.getLast?_append, List.getLast?_cons]
    cases hl : n.getLast? with
    | none => exact absurd (List.getLast?_eq_none_iff.1 hl) h0
    | some x => simp
  rw [h]
  cases hl : n.getLast? with
  | none => rfl
  | some x =>
    have hx : x ∈ n := List.mem_of_getLast?_eq_some hl
    have : x ≠ '/' := fun e => hn (e ▸ hx)
    simp [this]

/-- On a non-empty file name without `/` other than `.` and `..`, joining
with a directory puts a text that depends on the directory only in front of
the name. -/
theorem pathJoin_plain (dir : String) :
    ∃ P : List Char, ∀ n : String, '/' ∉ n.data → n.data ≠ [] → n.data ≠ ['.'] →
      n.data ≠ ['.', '.'] → (pathJoin dir n).data = P ++ n.data := by
  by_cases hd : dir.data = []
  · refine ⟨[], ?_⟩
    intro n hn h0 h1 h2
    have hhead : (n.data.head? == some '/') = false := by
      cases hl : n.data with
      | nil => rfl
      | cons c cs =>
        have : c ≠ '/' := fun e => hn (by rw [hl, e]; simp)
        simp [this]
    have hlast : (n.data.getLast? == some '/') = false := by
      cases hl : n.data.getLast? with
      | none => rfl
      | some x =>
        have hx : x ∈ n.data := List.mem_of_getLast?_eq_some hl
        have : x ≠ '/' := fun e => hn (e ▸ hx)
        simp [this]
    simp [pathJoin, hd, h0, normalizeChars, hhead, hlast, normalizeString,
      splitSlash_plain n.data hn, pushSegment_plain true [] n.data h0 h1 h2, joinSegments]
  · refine ⟨(if (dir.data.head? == some '/') = true then ['/'] else []) ++
      (if ((splitSlash dir.data).foldl
            (pushSegment (!(dir.data.head? == some '/'))) []).reverse = [] then []
        else joinSegments ((splitSlash dir.data).foldl
            (pushSegment (!(dir.data.head? == some '/'))) []).reverse ++ ['/']), ?_⟩
    intro n hn h0 h1 h2
    have hhead : (dir.data ++ '/' :: n.data).head? = dir.data.head? := by
      cases hl : dir.data with
      | nil => exact absurd hl hd
      | cons c cs => rfl
    have hne : dir.data ++ '/' :: n.data ≠ [] := by simp
    simp only [pathJoin, hd, h0, if_false, normalizeChars, hne, hhead,
      getLast?_plain dir.data n.data hn h0,
      normalizeString_plain dir.data n.data _ hn h0 h1 h2]
    have hp : ∀ Q : List Char, Q ++ n.data ≠ [] := by
      intro Q h
      exact h0 (List.append_eq_nil.1 h).2
    simp [hp]

/-! ## Temporary file names -/

theorem string_append_right_cancel (a b s : String) (h : a ++ s = b ++ s) : a = b := by
  have h1 := congrArg String.data h
  simp only [String.data_append] at h1
  exact String.ext (List.append_cancel_right h1)

theorem string_append_left_cancel (s a b : String) (h : s ++ a = s ++ b) : a = b := by
  have h1 := congrArg String.data h
  simp only [String.data_append] at h1
  exact String.ext (List.append_cancel_left h1)

theorem string_append_assoc (a b c : String) : a ++ b ++ c = a ++ (b ++ c) := by
  apply String.ext
  simp [String.data_append]

theorem inputName_injective (a b : String) (h : inputName a = inputName b) : a = b :=
  string_append_right_cancel a b ".ogg" h

theorem outputName_injective (a b : String) (h : outputName a = outputName b) : a = b :=
  string_append_right_cancel a b "_accelerated.ogg" h

theorem inputName_eq_outputName (a b : String) (h : inputName a = outputName b) :
    a = b ++ "_accelerated" := by
  have h2 : b ++ "_accelerated.ogg" = (b ++ "_accelerated") ++ ".ogg" := by
    rw [string_append_assoc]; rfl
  unfold inputName outputName at h
  rw [h2] at h
  exact string_append_right_cancel _ _ ".ogg" h

theorem plain_name (id suffix : String) (hid : '/' ∉ id.data) (hs : '/' ∉ suffix.data)
    (hlen : 3 ≤ suffix.data.length) :
    '/' ∉ (id ++ suffix).data ∧ (id ++ suffix).data ≠ [] ∧ (id ++ suffix).data ≠ ['.'] ∧
      (id ++ suffix).data ≠ ['.', '.'] := by
  have hl : 3 ≤ (id ++ suffix).data.length := by
    rw [String.data_append, List.length_append]; omega
  refine ⟨?_, ?_, ?_, ?_⟩
  · rw [String.data_append, List.mem_append]
    exact fun h => h.elim hid hs
  · intro h; rw [h] at hl; simp at hl
  · intro h; rw [h] at hl; simp at hl
  · intro h; rw [h] at hl; simp at hl

theorem pathJoin_injective (dir x y : String)
    (hx : '/' ∉ x.data ∧ x.data ≠ [] ∧ x.data ≠ ['.'] ∧ x.data ≠ ['.', '.'])
    (hy : '/' ∉ y.data ∧ y.data ≠ [] ∧ y.data ≠ ['.'] ∧ y.data ≠ ['.', '.'])
    (h : pathJoin dir x = pathJoin dir y) : x = y := by
  obtain ⟨P, hP⟩ := pathJoin_plain dir
  have h1 := congrArg String.data h
  rw [hP x hx.1 hx.2.1 hx.2.2.1 hx.2.2.2, hP y hy.1 hy.2.1 hy.2.2.1 hy.2.2.2] at h1
  exact String.ext (List.append_cancel_left h1)

/-- C9, as stated, fails: the ids "abc123_accelerated" and "abc123" are
distinct and the input file of the first is the output file of the second;
the ids "./abc123" and "abc123" are distinct and `path.join` gives both jobs
the same two paths. -/
theorem job_files_can_collide :
    "abc123_accelerated" ≠ "abc123" ∧
    inputName "abc123_accelerated" ∈ jobFiles "abc123_accelerated" ∧
    inputName "abc123_accelerated" ∈ jobFiles "abc123" ∧
    "./abc123" ≠ "abc123" ∧
    jobPaths envUnset { msgVoice with id := "./abc123" } = jobPaths envUnset msgVoice := by
  decide

/-- C9, amended: for every two distinct message ids that contain no path
separator and neither of which is the other followed by "_accelerated", the
temporary file names of the two jobs are disjoint, and so are the paths that
`path.join` makes of them in the scratch directory. -/
theorem job_files_disjoint (a b : String) (hab : a ≠ b) (hsa : '/' ∉ a.data)
    (hsb : '/' ∉ b.data) (h1 : a ≠ b ++ "_accelerated") (h2 : b ≠ a ++ "_accelerated") :
    (∀ f, f ∈ jobFiles a → f ∉ jobFiles b) ∧
    (∀ env ma mb, ma.id = a → mb.id = b → ∀ p, p ∈ jobPaths env ma → p ∉ jobPaths env mb) := by
  have key : ∀ f, f ∈ jobFiles a → f ∉ jobFiles b := by
    intro f ha hb
    simp only [jobFiles, List.mem_cons, List.mem_singleton, List.not_mem_nil, or_false] at ha hb
    rcases ha with rfl | rfl <;> rcases hb with hb | hb
    · exact hab (inputName_injective a b hb)
    · exact h1 (inputName_eq_outputName a b hb)
    · exact h2 (inputName_eq_outputName b a hb.symm)
    · exact hab (outputName_injective a b hb)
  refine ⟨key, ?_⟩
  intro env ma mb hma hmb p hpa hpb
  simp only [jobPaths, inputPath, outputPath, List.mem_cons, List.mem_singleton,
    List.not_mem_nil, or_false, hma, hmb] at hpa hpb
  have pia := plain_name a ".ogg" hsa (by decide) (by decide)
  have poa := plain_name a "_accelerated.ogg" hsa (by decide) (by decide)
  have pib := plain_name b ".ogg" hsb (by decide) (by decide)
  have pob := plain_name b "_accelerated.ogg" hsb (by decide) (by decide)
  rcases hpa with rfl | rfl <;> rcases hpb with hb | hb
  · have e : inputName a = inputName b :=
      pathJoin_injective env.tempDir (inputName a) (inputName b) pia pib hb
    exact key (inputName a) (by simp [jobFiles]) (by rw [e]; simp [jobFiles])
  · have e : inputName a = outputName b :=
      pathJoin_injective env.tempDir (inputName a) (outputName b) pia pob hb
    exact key (inputName a) (by simp [jobFiles]) (by rw [e]; simp [jobFiles])
  · have e : outputName a = inputName b :=
      pathJoin_injective env.tempDir (outputName a) (inputName b) poa pib hb
    exact key (outputName a) (by simp [jobFiles]) (by rw [e]; simp [jobFiles])
  · have e : outputName a = outputName b :=
      pathJoin_injective env.tempDir (outputName a) (outputName b) poa pob hb
    exact key (outputName a) (by simp [jobFiles]) (by rw [e]; simp [jobFiles])

/-- Scenario for C9: the ids "abc123" and "abc124" have disjoint file names. -/
theorem job_files_disjoint_witness :
    inputName "abc123" ∉ jobFiles "abc124" ∧ outputName "abc123" ∉ jobFiles "abc124" :=
  ⟨(job_files_disjoint "abc123" "abc124" (by decide) (by decide) (by decide) (by decide)
      (by decide)).1 (inputName "abc123") (by decide),
    (job_files_disjoint "abc123" "abc124" (by decide) (by decide) (by decide) (by decide)
      (by decide)).1 (outputName "abc123") (by decide)⟩

end WhatsappBot
